import Mathlib

/-!
Shallow embedding of the frustum-culling / scene-graph / frame-orchestration
core of the `vulkan14dr_scenegraph` engine (`b3` namespace in the C++ source).

Modelling conventions:
* glm `float` vector and matrix arithmetic is modelled over the real numbers;
* `size_t` is modelled as `Nat` with an explicit `% 2 ^ 64` at the one place
  where overflow can occur (`minDynamicUBOAlignment`);
* `std::shared_ptr` / `std::weak_ptr` members are modelled as `Option` fields
  (a `weak_ptr` that is empty or expired is `none`);
* command recording is modelled as the list of draw calls a pass records.
-/

namespace B3

/-! ## Definitions: vector math (glm) -/

/-- glm::vec3 (three `float` components, modelled over `ℝ`). -/
@[ext]
structure Vec3 where
  x : ℝ
  y : ℝ
  z : ℝ

instance : Zero Vec3 := ⟨⟨0, 0, 0⟩⟩

instance : Add Vec3 := ⟨fun a b => ⟨a.x + b.x, a.y + b.y, a.z + b.z⟩⟩

instance : Sub Vec3 := ⟨fun a b => ⟨a.x - b.x, a.y - b.y, a.z - b.z⟩⟩

instance : Neg Vec3 := ⟨fun a => ⟨-a.x, -a.y, -a.z⟩⟩

instance : SMul ℝ Vec3 := ⟨fun r a => ⟨r * a.x, r * a.y, r * a.z⟩⟩

/-- glm `dot`. -/
def Vec3.dot (a b : Vec3) : ℝ := a.x * b.x + a.y * b.y + a.z * b.z

/-- glm `length` (Euclidean norm). -/
noncomputable def Vec3.length (v : Vec3) : ℝ := Real.sqrt (Vec3.dot v v)

/-- glm `distance(p0, p1) = length(p1 - p0)`. -/
noncomputable def Vec3.distance (p0 p1 : Vec3) : ℝ := Vec3.length (p1 - p0)

/-- glm `distance2(p0, p1)` (squared distance). -/
def Vec3.distance2 (p0 p1 : Vec3) : ℝ := Vec3.dot (p1 - p0) (p1 - p0)

/-- glm componentwise division of a vector by a scalar (`v / s`, `v /= s`). -/
noncomputable def Vec3.divS (v : Vec3) (s : ℝ) : Vec3 := ⟨v.x / s, v.y / s, v.z / s⟩

/-- glm `normalize(v) = v / length(v)`. -/
noncomputable def Vec3.normalize (v : Vec3) : Vec3 := Vec3.divS v (Vec3.length v)

/-- Bridge into `EuclideanSpace` to reuse Mathlib's metric lemmas. -/
noncomputable def Vec3.toE (v : Vec3) : EuclideanSpace ℝ (Fin 3) :=
  (WithLp.equiv 2 (Fin 3 → ℝ)).symm ![v.x, v.y, v.z]

/-- glm::vec2. -/
@[ext]
structure Vec2 where
  x : ℝ
  y : ℝ

/-- glm::mat4, column-major: `m c r` is element `m[c][r]` (column `c`, row `r`). -/
abbrev Mat4 : Type := Fin 4 → Fin 4 → ℝ

/-- glm matrix product, column-major: `(A*B)[c][r] = Σ_k A[k][r] * B[c][k]`. -/
def matMul (a b : Mat4) : Mat4 := fun c r => ∑ k : Fin 4, a k r * b c k

/-- glm::quat (w, x, y, z components). -/
structure Quat where
  w : ℝ
  x : ℝ
  y : ℝ
  z : ℝ

/-- The glm `quat(vec3 eulerAngle)` constructor:
half-angle cosines/sines combined per component. -/
noncomputable def quatFromEuler (e : Vec3) : Quat :=
  let cx := Real.cos (e.x * (1 / 2))
  let cy := Real.cos (e.y * (1 / 2))
  let cz := Real.cos (e.z * (1 / 2))
  let sx := Real.sin (e.x * (1 / 2))
  let sy := Real.sin (e.y * (1 / 2))
  let sz := Real.sin (e.z * (1 / 2))
  ⟨cx * cy * cz + sx * sy * sz,
   sx * cy * cz - cx * sy * sz,
   cx * sy * cz + sx * cy * sz,
   cx * cy * sz - sx * sy * cz⟩

/-- glm `mat4_cast(quat)`: rotation matrix of a quaternion
(columns of the 3x3 block, last row/column identity). -/
def mat4_cast (q : Quat) : Mat4 :=
  ![![1 - 2 * (q.y * q.y + q.z * q.z), 2 * (q.x * q.y + q.w * q.z),
     2 * (q.x * q.z - q.w * q.y), 0],
    ![2 * (q.x * q.y - q.w * q.z), 1 - 2 * (q.x * q.x + q.z * q.z),
     2 * (q.y * q.z + q.w * q.x), 0],
    ![2 * (q.x * q.z + q.w * q.y), 2 * (q.y * q.z - q.w * q.x),
     1 - 2 * (q.x * q.x + q.y * q.y), 0],
    ![0, 0, 0, 1]]

/-! ## Definitions: frustum culling (frustum_culling.hpp / .cpp) -/

/-- `struct Plane`: normal + scalar offset `d`. -/
structure Plane where
  normal : Vec3
  d : ℝ

/-- `Plane::distance(p) = dot(normal, p) + d`. -/
def Plane.distance (pl : Plane) (p : Vec3) : ℝ := Vec3.dot pl.normal p + pl.d

/-- `struct Frustum`: six planes, 0 Left, 1 Right, 2 Bottom, 3 Top, 4 Near, 5 Far. -/
structure Frustum where
  planes : Fin 6 → Plane

/-- `struct BoundingSphere`: center + radius, default-initialized to zeros. -/
structure BoundingSphere where
  center : Vec3 := 0
  radius : ℝ := 0

/-- The six planes of `extractFrustum` before the normalization loop:
row-combination coefficients read off the view-projection matrix. -/
def preFrustumPlanes (vp : Mat4) : Fin 6 → Plane := fun i =>
  match i with
  | 0 => ⟨⟨vp 0 3 + vp 0 0, vp 1 3 + vp 1 0, vp 2 3 + vp 2 0⟩, vp 3 3 + vp 3 0⟩
  | 1 => ⟨⟨vp 0 3 - vp 0 0, vp 1 3 - vp 1 0, vp 2 3 - vp 2 0⟩, vp 3 3 - vp 3 0⟩
  | 2 => ⟨⟨vp 0 3 + vp 0 1, vp 1 3 + vp 1 1, vp 2 3 + vp 2 1⟩, vp 3 3 + vp 3 1⟩
  | 3 => ⟨⟨vp 0 3 - vp 0 1, vp 1 3 - vp 1 1, vp 2 3 - vp 2 1⟩, vp 3 3 - vp 3 1⟩
  | 4 => ⟨⟨vp 0 3 + vp 0 2, vp 1 3 + vp 1 2, vp 2 3 + vp 2 2⟩, vp 3 3 + vp 3 2⟩
  | 5 => ⟨⟨vp 0 3 - vp 0 2, vp 1 3 - vp 1 2, vp 2 3 - vp 2 2⟩, vp 3 3 - vp 3 2⟩

/-- The normalization loop body of `extractFrustum`:
`len = length(normal); normal /= len; d /= len`. -/
noncomputable def normalizePlane (pl : Plane) : Plane :=
  ⟨Vec3.divS pl.normal (Vec3.length pl.normal), pl.d / Vec3.length pl.normal⟩

/-- `extractFrustum(vp)`: six row-combination planes, each normalized. -/
noncomputable def extractFrustum (vp : Mat4) : Frustum :=
  ⟨fun i => normalizePlane (preFrustumPlanes vp i)⟩

/-- `sphereInFrustum(f, s)`: true unless some plane has
`distance(center) < -radius` (the loop's early `return false`). -/
def sphereInFrustum (f : Frustum) (s : BoundingSphere) : Prop :=
  ∀ i : Fin 6, ¬ ((f.planes i).distance s.center < -s.radius)

/-- One iteration of Ritter Step 2 (`computeBoundingSphere` growth loop):
if the point is outside, grow the sphere minimally to include it. -/
noncomputable def ritterGrow (s : BoundingSphere) (p : Vec3) : BoundingSphere :=
  let d := Vec3.distance p s.center
  if d > s.radius then
    let newRadius := (s.radius + d) * (1 / 2)
    let dir := Vec3.normalize (p - s.center)
    let newCenter := s.center + (newRadius - s.radius) • dir
    ⟨newCenter, newRadius⟩
  else s

/-- The `a = argmax_i distance2(v[i], q)` scan of `computeBoundingSphere`:
`a = 0; maxDist = 0;` then update index and max on strictly greater distance. -/
noncomputable def argmaxDist2 (v : List Vec3) (q : Vec3) : Nat :=
  (v.enum.foldl
    (fun (st : Nat × ℝ) ix =>
      if Vec3.distance2 ix.2 q > st.2 then (ix.1, Vec3.distance2 ix.2 q) else st)
    (0, 0)).1

/-- `computeBoundingSphere(const std::vector<glm::vec3>&)` (Ritter).
Out-of-range indexing (possible only for an empty input, where the C++
reads `v[0]` unchecked) is modelled as the zero vector. -/
noncomputable def computeBoundingSphere (v : List Vec3) : BoundingSphere :=
  let p := v.getD 0 0
  let a := argmaxDist2 v p
  let b := argmaxDist2 v (v.getD a 0)
  let center := (1 / 2 : ℝ) • (v.getD a 0 + v.getD b 0)
  let radius := Vec3.distance (v.getD a 0) (v.getD b 0) * (1 / 2)
  v.foldl ritterGrow ⟨center, radius⟩

/-! ## Definitions: mesh / texture / vertex (types.hpp, mesh.hpp) -/

/-- `struct Vertex`: position, normal, texture coordinate. -/
structure Vertex where
  position : Vec3
  normal : Vec3
  texCoord : Vec2

/-- `class Mesh`: ordered vertices and 32-bit indices. -/
structure Mesh where
  vertices : List Vertex
  indices : List Nat

/-- `Mesh::numberOfIndices()`. -/
def Mesh.numberOfIndices (m : Mesh) : Nat := m.indices.length

/-- `class Texture`: only object identity matters to the claims under proof;
pixel data is out of scope. -/
structure Texture where
  id : Nat

/-- The argmax scan of the `Vertex` overload of `computeBoundingSphere`
(`distance2(v[i].position, q)`). -/
noncomputable def argmaxDist2V (v : List Vertex) (q : Vec3) : Nat :=
  (v.enum.foldl
    (fun (st : Nat × ℝ) ix =>
      if Vec3.distance2 ix.2.position q > st.2 then (ix.1, Vec3.distance2 ix.2.position q) else st)
    (0, 0)).1

/-- Default vertex used to model out-of-range `std::vector` indexing. -/
def vertexDefault : Vertex := ⟨0, 0, ⟨0, 0⟩⟩

/-- `computeBoundingSphere(const std::vector<Vertex>&)`: the same Ritter
algorithm applied to the `position` field of each vertex record. -/
noncomputable def computeBoundingSphereV (v : List Vertex) : BoundingSphere :=
  let p := (v.getD 0 vertexDefault).position
  let a := argmaxDist2V v p
  let b := argmaxDist2V v (v.getD a vertexDefault).position
  let center := (1 / 2 : ℝ) •
    ((v.getD a vertexDefault).position + (v.getD b vertexDefault).position)
  let radius := Vec3.distance (v.getD a vertexDefault).position
    (v.getD b vertexDefault).position * (1 / 2)
  v.foldl (fun s vert => ritterGrow s vert.position) ⟨center, radius⟩

/-! ## Definitions: scene graph node (node.hpp, node.cpp) -/

/-- `class Node`: weak parent reference (`none` when absent or expired),
position, orientation quaternion, shared mesh/texture (`none` when null),
and the cached object-space bounding sphere. -/
inductive Node where
  | mk (parent : Option Node) (pos : Vec3) (quat : Quat)
       (mesh : Option Mesh) (texture : Option Texture)
       (bsphere : BoundingSphere)

def Node.parent : Node → Option Node
  | .mk par _ _ _ _ _ => par

def Node.pos : Node → Vec3
  | .mk _ p _ _ _ _ => p

def Node.quat : Node → Quat
  | .mk _ _ q _ _ _ => q

def Node.mesh : Node → Option Mesh
  | .mk _ _ _ m _ _ => m

def Node.texture : Node → Option Texture
  | .mk _ _ _ _ t _ => t

/-- The cached object-space bounding sphere `m_boundingSphere`. -/
def Node.bsphere : Node → BoundingSphere
  | .mk _ _ _ _ _ b => b

/-- `Node()` (defaulted): empty parent, zero position, identity-from-Euler
quaternion, null mesh/texture, default bounding sphere. -/
noncomputable def Node.defaultNode : Node :=
  .mk none ⟨0, 0, 0⟩ (quatFromEuler ⟨0, 0, 0⟩) none none {}

/-- `Node(mesh, texture)`: stores the pair and computes the bounding sphere
from the mesh's vertices. -/
noncomputable def Node.create (m : Mesh) (t : Texture) : Node :=
  .mk none ⟨0, 0, 0⟩ (quatFromEuler ⟨0, 0, 0⟩) (some m) (some t)
    (computeBoundingSphereV m.vertices)

def Node.setPosition : Node → Vec3 → Node
  | .mk par _ q m t b, p => .mk par p q m t b

def Node.setQuat : Node → Quat → Node
  | .mk par p _ m t b, q => .mk par p q m t b

noncomputable def Node.setEulerAngle : Node → Vec3 → Node
  | .mk par p _ m t b, e => .mk par p (quatFromEuler e) m t b

/-- `Node::setMesh`: replaces the mesh and recomputes the bounding sphere. -/
noncomputable def Node.setMesh : Node → Mesh → Node
  | .mk par p q _ t _, m => .mk par p q (some m) t (computeBoundingSphereV m.vertices)

def Node.setTexture : Node → Texture → Node
  | .mk par p q m _ b, t => .mk par p q m (some t) b

/-- `Node::localMatrix()`: `mat4_cast` of the quaternion with the position
written into column 3 (entries `[3][0..3]`). -/
noncomputable def Node.localMatrix (n : Node) : Mat4 :=
  Function.update (mat4_cast n.quat) 3 ![n.pos.x, n.pos.y, n.pos.z, 1]

/-- `Node::worldMatrix()`: parent's world matrix times the local matrix when
the weak parent reference resolves, the local matrix alone otherwise. -/
noncomputable def Node.worldMatrix : Node → Mat4
  | .mk none p q m t b => Node.localMatrix (.mk none p q m t b)
  | .mk (some par) p q m t b =>
      matMul par.worldMatrix (Node.localMatrix (.mk (some par) p q m t b))

/-- `Node::boundingSphere()`: copy of the cached sphere with the node's
position added to the center. -/
def Node.boundingSphereQ (n : Node) : BoundingSphere :=
  ⟨n.bsphere.center + n.pos, n.bsphere.radius⟩

/-- Translation column of a world transform (entries `m[3][0..2]`). -/
def worldTranslation (m : Mat4) : Vec3 := ⟨m 3 0, m 3 1, m 3 2⟩

/-- Closure of the public `Node` interface: every node value obtainable from
the two constructors and the public mutators. -/
inductive NodeReachable : Node → Prop where
  | default : NodeReachable Node.defaultNode
  | create (m : Mesh) (t : Texture) : NodeReachable (Node.create m t)
  | setPosition {n : Node} (p : Vec3) : NodeReachable n → NodeReachable (n.setPosition p)
  | setQuat {n : Node} (q : Quat) : NodeReachable n → NodeReachable (n.setQuat q)
  | setEulerAngle {n : Node} (e : Vec3) : NodeReachable n → NodeReachable (n.setEulerAngle e)
  | setMesh {n : Node} (m : Mesh) : NodeReachable n → NodeReachable (n.setMesh m)
  | setTexture {n : Node} (t : Texture) : NodeReachable n → NodeReachable (n.setTexture t)

/-! ## Definitions: per-frame rendering (texture.hpp Engine) -/

/-- One recorded indexed draw: the mesh whose vertex/index buffers are bound
(`meshBufferMap[node->mesh()]`), the index count passed to
`vkCmdDrawIndexed`, and the dynamic uniform offset bound with the
descriptor set. -/
structure DrawCall where
  mesh : Option Mesh
  indexCount : Nat
  dynamicOffset : Nat

/-- Index count a draw uses: `node->mesh()->numberOfIndices()`
(a null mesh, undefined in C++, is modelled as 0 indices). -/
def Node.drawIndexCount (n : Node) : Nat :=
  match n.mesh with
  | some m => m.numberOfIndices
  | none => 0

/-- The draw call recorded for node `n` at list position `i` with the given
per-node stride: `dynamic_offset = i * stride`. -/
def drawCallFor (n : Node) (i stride : Nat) : DrawCall :=
  ⟨n.mesh, n.drawIndexCount, i * stride⟩

/-- The per-node loop shared by `Engine::renderShadow` and `Engine::render`:
for `i` in list order, skip when the flag is unset (`continue`), otherwise
bind the node's buffers and offset `i * stride` and record an indexed draw. -/
noncomputable def recordDraws (nodes : List Node) (flags : List Bool) (stride : Nat) :
    List DrawCall :=
  (List.range nodes.length).filterMap fun i =>
    if flags.getD i false then some (drawCallFor (nodes.getD i Node.defaultNode) i stride)
    else none

/-- The engine state a frame's visibility/recording step reads: the scene
node list, the light and camera view-projection matrices built in
`Engine::updateUBO` (`shadowProj * shadowView` and `proj * view`), and the
two per-node uniform strides. -/
structure EngineFrame where
  nodes : List Node
  shadowVP : Mat4
  sceneVP : Mat4
  shadowStride : Nat
  modelStride : Nat

/-- What `Engine::updateUBO` stores into `m_shadowCastingNodes`:
`sphereInFrustum(extractFrustum(shadowVP), node->boundingSphere())`
for every node index. -/
def shadowFlagsSpec (e : EngineFrame) (flags : List Bool) : Prop :=
  flags.length = e.nodes.length ∧
  ∀ i, i < e.nodes.length →
    (flags.getD i false = true ↔
      sphereInFrustum (extractFrustum e.shadowVP)
        (e.nodes.getD i Node.defaultNode).boundingSphereQ)

/-- What `Engine::updateUBO` stores into `m_visibleNodes`:
`sphereInFrustum(extractFrustum(sceneVP), node->boundingSphere())`
for every node index. -/
def visibleFlagsSpec (e : EngineFrame) (flags : List Bool) : Prop :=
  flags.length = e.nodes.length ∧
  ∀ i, i < e.nodes.length →
    (flags.getD i false = true ↔
      sphereInFrustum (extractFrustum e.sceneVP)
        (e.nodes.getD i Node.defaultNode).boundingSphereQ)

/-- Draws recorded by `Engine::renderShadow` (flag array `m_shadowCastingNodes`,
stride `shadowUBOBufferSizePerNode`). -/
noncomputable def renderShadowDraws (e : EngineFrame) (flags : List Bool) : List DrawCall :=
  recordDraws e.nodes flags e.shadowStride

/-- Draws recorded by the color pass `Engine::render` (flag array
`m_visibleNodes`, stride `modelUBOBufferSizePerNode`). -/
noncomputable def renderColorDraws (e : EngineFrame) (flags : List Bool) : List DrawCall :=
  recordDraws e.nodes flags e.modelStride

/-! ## Definitions: uniform stride and buffer bounds (texture.hpp Engine) -/

/-- `Engine::MAX_NODES`. -/
def MAX_NODES : Nat := 32

/-- `Engine::minDynamicUBOAlignment(uboSize)` with the device-reported
`minUniformBufferOffsetAlignment` made explicit: when the alignment is
positive, `(size + align - 1) & ~(align - 1)` in 64-bit `size_t`
arithmetic, else the size unchanged.  `~(align - 1)` over 64 bits is
`2^64 - align`; the addition is reduced `% 2^64` where it can wrap. -/
def minDynamicUBOAlignment (uboSize minAlign : Nat) : Nat :=
  if 0 < minAlign then
    ((uboSize + minAlign - 1) % 2 ^ 64) &&& (2 ^ 64 - minAlign)
  else uboSize

/-- Total uniform buffer size allocated by `initModelUB` / `initShadowUB`:
`MAX_NODES * <per-node stride>`. -/
def uboTotalBufferSize (stride : Nat) : Nat := MAX_NODES * stride

/-- The byte range `[i * stride, i * stride + size)` written for node `i` by
`Engine::updateUBO` lies inside a buffer of the given total size. -/
def uboWriteWithinBuffer (i stride size total : Nat) : Prop :=
  i * stride + size ≤ total

/-- `Engine::addNode`: unconditional `push_back`. -/
def addNode (nodes : List Node) (n : Node) : List Node := nodes ++ [n]

/-! ## Definitions: per-frame update orchestration (Engine::update) -/

/-- Result codes relevant to `Engine::update`:
`VK_SUCCESS`, `VK_SUBOPTIMAL_KHR`, `VK_ERROR_OUT_OF_DATE_KHR`,
and any other (error) code. -/
inductive VKResult where
  | success
  | suboptimal
  | outOfDate
  | errorOther
deriving DecidableEq

/-- The stale-surface condition `res == VK_SUBOPTIMAL_KHR ||
res == VK_ERROR_OUT_OF_DATE_KHR`. -/
def VKResult.isStale : VKResult → Bool
  | .suboptimal => true
  | .outOfDate => true
  | _ => false

/-- Environment of one `Engine::update` call: what the first acquire, the
retried acquire (consulted only if retried) and the present report. -/
structure FrameEnv where
  acquire1 : VKResult
  acquire2 : VKResult
  present1 : VKResult

/-- Observable actions of one `Engine::update` call. -/
structure FrameTrace where
  acquireAttempts : Nat
  resizeCalls : Nat
  uboUpdated : Bool
  rendered : Bool
  presentAttempts : Nat
  queueWaitIdle : Bool
deriving DecidableEq

/-- The acquire result `Engine::update` proceeds with: the retried one if the
first was stale, the first otherwise. -/
def finalAcquire (env : FrameEnv) : VKResult :=
  if env.acquire1.isStale then env.acquire2 else env.acquire1

/-- `Engine::update()`: acquire; on stale surface resize and retry the
acquire once; on non-success wait for queue idle and skip the frame;
otherwise update visibility/uniforms, render, present once, and resize
(without retrying the present) if the present reports a stale surface. -/
def updateModel (env : FrameEnv) : FrameTrace :=
  let retried := env.acquire1.isStale
  let res := if retried then env.acquire2 else env.acquire1
  let acqAttempts := if retried then 2 else 1
  let resizes := if retried then 1 else 0
  if res ≠ VKResult.success then
    ⟨acqAttempts, resizes, false, false, 0, true⟩
  else
    ⟨acqAttempts, resizes + (if env.present1.isStale then 1 else 0), true, true, 1, false⟩

/-- Identity view-projection matrix, used as a concrete non-degenerate input. -/
def idMat4 : Mat4 := fun c r => if c = r then 1 else 0

/-! ## Vec3 lemmas -/

theorem Vec3.zero_def : (0 : Vec3) = ⟨0, 0, 0⟩ := rfl

theorem Vec3.add_def (a b : Vec3) : a + b = ⟨a.x + b.x, a.y + b.y, a.z + b.z⟩ := rfl

theorem Vec3.sub_def (a b : Vec3) : a - b = ⟨a.x - b.x, a.y - b.y, a.z - b.z⟩ := rfl

theorem Vec3.smul_def (r : ℝ) (a : Vec3) : r • a = ⟨r * a.x, r * a.y, r * a.z⟩ := rfl

theorem Vec3.toE_apply (v : Vec3) : ∀ i, Vec3.toE v i = ![v.x, v.y, v.z] i := fun _ => rfl

theorem Vec3.toE_inj {a b : Vec3} (h : Vec3.toE a = Vec3.toE b) : a = b := by
  have hx := congrFun h 0
  have hy := congrFun h 1
  have hz := congrFun h 2
  simp only [Vec3.toE_apply] at hx hy hz
  simp [Matrix.cons_val_zero, Matrix.cons_val_one] at hx hy hz
  ext <;> assumption

theorem Vec3.toE_zero : Vec3.toE 0 = 0 := by
  funext i
  fin_cases i <;> simp [Vec3.toE_apply, Vec3.zero_def]

theorem Vec3.toE_sub (a b : Vec3) : Vec3.toE (a - b) = Vec3.toE a - Vec3.toE b := by
  funext i
  fin_cases i <;> simp [Vec3.toE_apply, Vec3.sub_def]

theorem Vec3.toE_smul (r : ℝ) (a : Vec3) : Vec3.toE (r • a) = r • Vec3.toE a := by
  funext i
  fin_cases i <;> simp [Vec3.toE_apply, Vec3.smul_def]

theorem Vec3.length_eq_norm (v : Vec3) : Vec3.length v = ‖Vec3.toE v‖ := by
  rw [EuclideanSpace.norm_eq]
  simp only [Vec3.toE_apply, Fin.sum_univ_three, Matrix.cons_val_zero, Matrix.cons_val_one,
    Matrix.head_cons, Matrix.cons_val_two, Matrix.tail_cons, Real.norm_eq_abs, sq_abs]
  rw [Vec3.length, Vec3.dot]
  congr 1
  ring

theorem Vec3.distance_eq_dist (p0 p1 : Vec3) :
    Vec3.distance p0 p1 = dist (Vec3.toE p0) (Vec3.toE p1) := by
  rw [Vec3.distance, Vec3.length_eq_norm, Vec3.toE_sub, dist_comm, dist_eq_norm]

theorem Vec3.distance_nonneg (p0 p1 : Vec3) : 0 ≤ Vec3.distance p0 p1 := by
  rw [Vec3.distance_eq_dist]; exact dist_nonneg

theorem Vec3.distance_comm (p0 p1 : Vec3) : Vec3.distance p0 p1 = Vec3.distance p1 p0 := by
  rw [Vec3.distance_eq_dist, Vec3.distance_eq_dist, dist_comm]

theorem Vec3.distance_triangle (a b c : Vec3) :
    Vec3.distance a c ≤ Vec3.distance a b + Vec3.distance b c := by
  rw [Vec3.distance_eq_dist, Vec3.distance_eq_dist, Vec3.distance_eq_dist]
  exact dist_triangle _ _ _

theorem Vec3.length_nonneg (v : Vec3) : 0 ≤ Vec3.length v := by
  rw [Vec3.length_eq_norm]; exact norm_nonneg _

theorem Vec3.length_eq_zero_iff (v : Vec3) : Vec3.length v = 0 ↔ v = 0 := by
  rw [Vec3.length_eq_norm, norm_eq_zero]
  constructor
  · intro h; exact Vec3.toE_inj (h.trans Vec3.toE_zero.symm)
  · intro h; rw [h, Vec3.toE_zero]

theorem Vec3.length_smul (r : ℝ) (v : Vec3) :
    Vec3.length (r • v) = |r| * Vec3.length v := by
  rw [Vec3.length_eq_norm, Vec3.toE_smul, norm_smul, Vec3.length_eq_norm, Real.norm_eq_abs]

theorem Vec3.divS_eq_smul (v : Vec3) (s : ℝ) : Vec3.divS v s = (1 / s) • v := by
  simp only [Vec3.divS, Vec3.smul_def]
  ext <;> ring

theorem Vec3.length_sub_comm (a b : Vec3) :
    Vec3.length (a - b) = Vec3.length (b - a) := by
  rw [Vec3.length_eq_norm, Vec3.length_eq_norm, Vec3.toE_sub, Vec3.toE_sub, norm_sub_rev]

theorem Vec3.length_normalize {v : Vec3} (h : v ≠ 0) : Vec3.length (Vec3.normalize v) = 1 := by
  have hl : Vec3.length v ≠ 0 := fun h0 => h ((Vec3.length_eq_zero_iff v).mp h0)
  have hpos : 0 < Vec3.length v := lt_of_le_of_ne (Vec3.length_nonneg v) (Ne.symm hl)
  rw [Vec3.normalize, Vec3.divS_eq_smul, Vec3.length_smul,
    abs_of_pos (by positivity : (0:ℝ) < 1 / Vec3.length v)]
  field_simp

/-! ## Ritter bounding-sphere lemmas -/

/-- Vector algebra of the growth step: new center minus the grown point. -/
theorem growCenter_sub_point (c p : Vec3) (t d : ℝ) :
    (c + t • Vec3.divS (p - c) d) - p = (t / d - 1) • (p - c) := by
  ext <;> simp [Vec3.add_def, Vec3.sub_def, Vec3.smul_def, Vec3.divS] <;> ring

/-- Vector algebra of the growth step: new center minus old center. -/
theorem growCenter_sub_center (c p : Vec3) (t d : ℝ) :
    (c + t • Vec3.divS (p - c) d) - c = (t / d) • (p - c) := by
  ext <;> simp [Vec3.add_def, Vec3.sub_def, Vec3.smul_def, Vec3.divS] <;> ring

theorem ritterGrow_of_le {s : BoundingSphere} {p : Vec3}
    (h : ¬ (Vec3.distance p s.center > s.radius)) : ritterGrow s p = s := by
  simp only [ritterGrow]
  rw [if_neg h]

theorem ritterGrow_of_gt {s : BoundingSphere} {p : Vec3}
    (h : Vec3.distance p s.center > s.radius) :
    ritterGrow s p =
      ⟨s.center + ((s.radius + Vec3.distance p s.center) * (1 / 2) - s.radius) •
          Vec3.normalize (p - s.center),
        (s.radius + Vec3.distance p s.center) * (1 / 2)⟩ := by
  simp only [ritterGrow]
  rw [if_pos h]

theorem ritterGrow_radius_nonneg (s : BoundingSphere) (p : Vec3) (h : 0 ≤ s.radius) :
    0 ≤ (ritterGrow s p).radius := by
  by_cases hd : Vec3.distance p s.center > s.radius
  · rw [ritterGrow_of_gt hd]
    have := Vec3.distance_nonneg p s.center
    dsimp only
    linarith
  · rw [ritterGrow_of_le hd]; exact h

/-- The grown sphere contains the point that triggered the growth
(and the point stays inside when no growth happens). -/
theorem ritterGrow_mem (s : BoundingSphere) (p : Vec3) (h0 : 0 ≤ s.radius) :
    Vec3.distance p (ritterGrow s p).center ≤ (ritterGrow s p).radius := by
  by_cases hd : Vec3.distance p s.center > s.radius
  · rw [ritterGrow_of_gt hd]
    dsimp only
    set r := s.radius with hr
    set d := Vec3.distance p s.center with hdd
    have hdpos : 0 < d := lt_of_le_of_lt h0 hd
    have hlen : Vec3.length (p - s.center) = d := by
      rw [Vec3.length_sub_comm]; rfl
    rw [Vec3.normalize, hlen, Vec3.distance, growCenter_sub_point, Vec3.length_smul,
      Vec3.length_sub_comm]
    rw [show Vec3.length (s.center - p) = d from rfl]
    have habs : |((r + d) * (1 / 2) - r) / d - 1| = (d + r) / (2 * d) := by
      have hval : ((r + d) * (1 / 2) - r) / d - 1 = -((d + r) / (2 * d)) := by
        field_simp
        ring
      rw [hval, abs_neg, abs_of_nonneg (by positivity)]
    rw [habs]
    have : (d + r) / (2 * d) * d = (r + d) * (1 / 2) := by
      field_simp
      ring
    linarith [this.le]
  · rw [ritterGrow_of_le hd]
    exact le_of_not_lt hd

/-- Growth moves the center by exactly the radius increase, so any point
already inside stays inside (triangle inequality). -/
theorem ritterGrow_mono (s : BoundingSphere) (p q : Vec3) (h0 : 0 ≤ s.radius)
    (hq : Vec3.distance q s.center ≤ s.radius) :
    Vec3.distance q (ritterGrow s p).center ≤ (ritterGrow s p).radius := by
  by_cases hd : Vec3.distance p s.center > s.radius
  · rw [ritterGrow_of_gt hd]
    dsimp only
    set r := s.radius with hr
    set d := Vec3.distance p s.center with hdd
    have hdpos : 0 < d := lt_of_le_of_lt h0 hd
    have hlen : Vec3.length (p - s.center) = d := by
      rw [Vec3.length_sub_comm]; rfl
    have hcc : Vec3.distance s.center
        (s.center + ((r + d) * (1 / 2) - r) • Vec3.normalize (p - s.center)) =
        (r + d) * (1 / 2) - r := by
      rw [Vec3.normalize, hlen, Vec3.distance, growCenter_sub_center, Vec3.length_smul, hlen]
      have habs : |((r + d) * (1 / 2) - r) / d| = ((r + d) * (1 / 2) - r) / d := by
        apply abs_of_nonneg
        apply div_nonneg _ hdpos.le
        linarith
      rw [habs]
      field_simp
      ring
    have htri := Vec3.distance_triangle q s.center
      (s.center + ((r + d) * (1 / 2) - r) • Vec3.normalize (p - s.center))
    rw [hcc] at htri
    linarith
  · rw [ritterGrow_of_le hd]
    exact hq

/-- Invariant of the Ritter Step-2 fold: the radius stays non-negative, the
final ball contains every intermediate ball, and every processed point. -/
theorem ritterFold_spec (v : List Vec3) : ∀ s : BoundingSphere, 0 ≤ s.radius →
    0 ≤ (v.foldl ritterGrow s).radius ∧
    (∀ q, Vec3.distance q s.center ≤ s.radius →
      Vec3.distance q (v.foldl ritterGrow s).center ≤ (v.foldl ritterGrow s).radius) ∧
    (∀ p ∈ v, Vec3.distance p (v.foldl ritterGrow s).center ≤ (v.foldl ritterGrow s).radius) := by
  induction v with
  | nil =>
      intro s hs
      exact ⟨hs, fun q hq => hq, fun p hp => absurd hp (List.not_mem_nil p)⟩
  | cons p rest ih =>
      intro s hs
      have hs' : 0 ≤ (ritterGrow s p).radius := ritterGrow_radius_nonneg s p hs
      obtain ⟨h1, h2, h3⟩ := ih (ritterGrow s p) hs'
      rw [List.foldl_cons]
      refine ⟨h1, fun q hq => h2 q (ritterGrow_mono s p q hs hq), ?_⟩
      intro x hx
      rcases List.mem_cons.mp hx with hxp | hxr
      · subst hxp
        exact h2 x (ritterGrow_mem s x hs)
      · exact h3 x hxr

/-! ## Claim C1: bounding-sphere containment -/

/-- C1: for every non-empty sequence of 3D points, the sphere returned by
`computeBoundingSphere` contains every input point (each point's distance to
the returned center is at most the returned radius) and the returned radius
is non-negative. -/
theorem computeBoundingSphere_contains (v : List Vec3) (hne : v ≠ []) :
    0 ≤ (computeBoundingSphere v).radius ∧
    ∀ p ∈ v, Vec3.distance p (computeBoundingSphere v).center ≤
      (computeBoundingSphere v).radius := by
  have key := fun (c : Vec3) (a b : Vec3) =>
    ritterFold_spec v ⟨c, Vec3.distance a b * (1 / 2)⟩
      (mul_nonneg (Vec3.distance_nonneg a b) (by norm_num))
  simp only [computeBoundingSphere]
  exact ⟨(key _ _ _).1, (key _ _ _).2.2⟩

/-- Witness for C1 at the one-point list `[(1, 2, 3)]`. -/
theorem computeBoundingSphere_contains_witness :
    0 ≤ (computeBoundingSphere [⟨1, 2, 3⟩]).radius ∧
    ∀ p ∈ [(⟨1, 2, 3⟩ : Vec3)],
      Vec3.distance p (computeBoundingSphere [⟨1, 2, 3⟩]).center ≤
        (computeBoundingSphere [⟨1, 2, 3⟩]).radius :=
  computeBoundingSphere_contains [⟨1, 2, 3⟩] (by simp)

/-! ## Claim C2: sphere/frustum test boundary behavior -/

/-- C2: `sphereInFrustum` returns false iff some plane's signed distance to
the center is strictly below `-radius`; a tangent sphere (all distances
at least `-radius`, possibly with equality) is visible, and a sphere with
all distances at least `radius` is visible.  The radius hypothesis is the
`BoundingSphere` data-model invariant (radius is non-negative). -/
theorem sphereInFrustum_boundary (f : Frustum) (s : BoundingSphere) (h0 : 0 ≤ s.radius) :
    (¬ sphereInFrustum f s ↔
      ∃ i : Fin 6, (f.planes i).distance s.center < -s.radius) ∧
    ((∀ i : Fin 6, -s.radius ≤ (f.planes i).distance s.center) → sphereInFrustum f s) ∧
    ((∀ i : Fin 6, s.radius ≤ (f.planes i).distance s.center) → sphereInFrustum f s) := by
  refine ⟨?_, ?_, ?_⟩
  · simp only [sphereInFrustum, not_forall, not_not]
  · intro h i
    exact not_lt.mpr (h i)
  · intro h i
    have := h i
    intro hlt
    linarith

/-- Witness for C2: a sphere of radius 1 at the origin against a frustum all
of whose planes have distance 1 from the origin (exact tangency). -/
theorem sphereInFrustum_boundary_witness :
    sphereInFrustum ⟨fun _ => ⟨⟨1, 0, 0⟩, 1⟩⟩ ⟨0, 1⟩ :=
  (sphereInFrustum_boundary ⟨fun _ => ⟨⟨1, 0, 0⟩, 1⟩⟩ ⟨0, 1⟩ zero_le_one).2.1
    (fun _ => by simp [Plane.distance, Vec3.dot, Vec3.zero_def])

/-! ## Claim C3: frustum extraction -/

/-- C3: for a view-projection matrix whose six derived plane normals are
non-zero, `extractFrustum` returns the six planes in the order
{left, right, bottom, top, near, far}, each being the stated row
combination divided (normal and `d` alike) by the length of its normal,
and every returned normal has unit length. -/
theorem extractFrustum_planes_spec (vp : Mat4)
    (h : ∀ i, (preFrustumPlanes vp i).normal ≠ 0) :
    (∀ i, Vec3.length ((extractFrustum vp).planes i).normal = 1) ∧
    (extractFrustum vp).planes 0 = normalizePlane
      ⟨⟨vp 0 3 + vp 0 0, vp 1 3 + vp 1 0, vp 2 3 + vp 2 0⟩, vp 3 3 + vp 3 0⟩ ∧
    (extractFrustum vp).planes 1 = normalizePlane
      ⟨⟨vp 0 3 - vp 0 0, vp 1 3 - vp 1 0, vp 2 3 - vp 2 0⟩, vp 3 3 - vp 3 0⟩ ∧
    (extractFrustum vp).planes 2 = normalizePlane
      ⟨⟨vp 0 3 + vp 0 1, vp 1 3 + vp 1 1, vp 2 3 + vp 2 1⟩, vp 3 3 + vp 3 1⟩ ∧
    (extractFrustum vp).planes 3 = normalizePlane
      ⟨⟨vp 0 3 - vp 0 1, vp 1 3 - vp 1 1, vp 2 3 - vp 2 1⟩, vp 3 3 - vp 3 1⟩ ∧
    (extractFrustum vp).planes 4 = normalizePlane
      ⟨⟨vp 0 3 + vp 0 2, vp 1 3 + vp 1 2, vp 2 3 + vp 2 2⟩, vp 3 3 + vp 3 2⟩ ∧
    (extractFrustum vp).planes 5 = normalizePlane
      ⟨⟨vp 0 3 - vp 0 2, vp 1 3 - vp 1 2, vp 2 3 - vp 2 2⟩, vp 3 3 - vp 3 2⟩ := by
  refine ⟨?_, rfl, rfl, rfl, rfl, rfl, rfl⟩
  intro i
  have hnorm : ((extractFrustum vp).planes i).normal =
      Vec3.normalize (preFrustumPlanes vp i).normal := rfl
  rw [hnorm]
  exact Vec3.length_normalize (h i)

/-- Witness for C3 at the identity view-projection matrix. -/
theorem extractFrustum_planes_spec_witness :
    Vec3.length ((extractFrustum idMat4).planes 0).normal = 1 :=
  (extractFrustum_planes_spec idMat4 (by
    intro i
    fin_cases i <;> simp [preFrustumPlanes, idMat4, Vec3.zero_def])).1 0

/-! ## Node transform lemmas -/

theorem Node.parent_setPosition : ∀ (n : Node) (p : Vec3),
    (n.setPosition p).parent = n.parent
  | .mk _ _ _ _ _ _, _ => rfl

theorem Node.parent_setQuat : ∀ (n : Node) (q : Quat),
    (n.setQuat q).parent = n.parent
  | .mk _ _ _ _ _ _, _ => rfl

theorem Node.parent_setEulerAngle : ∀ (n : Node) (e : Vec3),
    (n.setEulerAngle e).parent = n.parent
  | .mk _ _ _ _ _ _, _ => rfl

theorem Node.parent_setMesh : ∀ (n : Node) (m : Mesh),
    (n.setMesh m).parent = n.parent
  | .mk _ _ _ _ _ _, _ => rfl

theorem Node.parent_setTexture : ∀ (n : Node) (t : Texture),
    (n.setTexture t).parent = n.parent
  | .mk _ _ _ _ _ _, _ => rfl

/-- Every node built through the public interface has an empty parent
reference: no constructor or mutator ever sets `m_parent`. -/
theorem nodeReachable_parent_none {n : Node} (h : NodeReachable n) : n.parent = none := by
  induction h with
  | default => rfl
  | create m t => rfl
  | setPosition p _ ih => rw [Node.parent_setPosition]; exact ih
  | setQuat q _ ih => rw [Node.parent_setQuat]; exact ih
  | setEulerAngle e _ ih => rw [Node.parent_setEulerAngle]; exact ih
  | setMesh m _ ih => rw [Node.parent_setMesh]; exact ih
  | setTexture t _ ih => rw [Node.parent_setTexture]; exact ih

theorem Node.worldMatrix_of_parent_none {n : Node} (h : n.parent = none) :
    n.worldMatrix = n.localMatrix := by
  cases n with
  | mk par p q m t b =>
    cases par with
    | none => rfl
    | some x => simp [Node.parent] at h

theorem Node.worldMatrix_of_parent_some {n par : Node} (h : n.parent = some par) :
    n.worldMatrix = matMul par.worldMatrix n.localMatrix := by
  cases n with
  | mk pr p q m t b =>
    cases pr with
    | none => simp [Node.parent] at h
    | some x =>
      simp only [Node.parent, Option.some.injEq] at h
      subst h
      rfl

theorem Node.localMatrix_col3 (n : Node) :
    n.localMatrix 3 = ![n.pos.x, n.pos.y, n.pos.z, 1] :=
  Function.update_same 3 _ _

theorem Node.localMatrix_col_ne (n : Node) {c : Fin 4} (h : c ≠ 3) :
    n.localMatrix c = mat4_cast n.quat c :=
  Function.update_noteq h _ _

theorem worldTranslation_localMatrix (n : Node) :
    worldTranslation n.localMatrix = n.pos := by
  have h3 := Node.localMatrix_col3 n
  ext <;> simp [worldTranslation, h3]

/-! ## Claim C5: local/world matrix composition -/

/-- C5: the local matrix is the rotation matrix of the orientation
quaternion with the position written into the translation column, and the
world matrix is the parent's world matrix times the local matrix when the
parent reference resolves, the local matrix alone when it is absent. -/
theorem node_matrix_composition (n : Node) :
    (∀ c : Fin 4, c ≠ 3 → n.localMatrix c = mat4_cast n.quat c) ∧
    n.localMatrix 3 = ![n.pos.x, n.pos.y, n.pos.z, 1] ∧
    (∀ p : Node, n.parent = some p →
      n.worldMatrix = matMul p.worldMatrix n.localMatrix) ∧
    (n.parent = none → n.worldMatrix = n.localMatrix) :=
  ⟨fun _ hc => Node.localMatrix_col_ne n hc,
   Node.localMatrix_col3 n,
   fun _ hp => Node.worldMatrix_of_parent_some hp,
   fun hp => Node.worldMatrix_of_parent_none hp⟩

/-- Witness for C5 on a concrete two-level parent/child hierarchy. -/
theorem node_matrix_composition_witness :
    (Node.mk (some (Node.mk none ⟨1, 0, 0⟩ ⟨1, 0, 0, 0⟩ none none {}))
        ⟨0, 1, 0⟩ ⟨1, 0, 0, 0⟩ none none {}).worldMatrix =
      matMul (Node.mk none ⟨1, 0, 0⟩ ⟨1, 0, 0, 0⟩ none none {}).worldMatrix
        (Node.mk (some (Node.mk none ⟨1, 0, 0⟩ ⟨1, 0, 0, 0⟩ none none {}))
          ⟨0, 1, 0⟩ ⟨1, 0, 0, 0⟩ none none {}).localMatrix :=
  (node_matrix_composition _).2.2.1 _ rfl

/-! ## Claim C9: the parent reference is never set -/

/-- C9: the public `Node` interface never sets the parent reference, so every
node obtainable through it has an empty parent and its world matrix is
exactly its local matrix (the parent-composition branch is unreachable). -/
theorem node_parent_invariant (n : Node) (h : NodeReachable n) :
    n.parent = none ∧ n.worldMatrix = n.localMatrix :=
  have hp := nodeReachable_parent_none h
  ⟨hp, Node.worldMatrix_of_parent_none hp⟩

/-- Witness for C9 at the default-constructed node. -/
theorem node_parent_invariant_witness :
    Node.defaultNode.parent = none ∧
    Node.defaultNode.worldMatrix = Node.defaultNode.localMatrix :=
  node_parent_invariant Node.defaultNode NodeReachable.default

/-! ## Claim C6: queried bounding sphere is the cached one translated -/

/-- C6: the bounding sphere used in the per-frame frustum tests keeps the
cached object-space radius and translates the cached center by the node's
position, which for every node of the program (parent reference always
absent) equals the translation component of the node's world transform. -/
theorem node_boundingSphere_world (n : Node) (h : NodeReachable n) :
    n.boundingSphereQ.radius = n.bsphere.radius ∧
    n.boundingSphereQ.center = n.bsphere.center + n.pos ∧
    n.boundingSphereQ.center = n.bsphere.center + worldTranslation n.worldMatrix := by
  have hp := nodeReachable_parent_none h
  have hw := Node.worldMatrix_of_parent_none hp
  refine ⟨rfl, rfl, ?_⟩
  rw [hw, worldTranslation_localMatrix]
  rfl

/-- Witness for C6 at the default-constructed node. -/
theorem node_boundingSphere_world_witness :
    Node.defaultNode.boundingSphereQ.radius = Node.defaultNode.bsphere.radius ∧
    Node.defaultNode.boundingSphereQ.center =
      Node.defaultNode.bsphere.center + Node.defaultNode.pos ∧
    Node.defaultNode.boundingSphereQ.center =
      Node.defaultNode.bsphere.center +
        worldTranslation Node.defaultNode.worldMatrix :=
  node_boundingSphere_world Node.defaultNode NodeReachable.default

/-! ## Claim C4: per-pass draws follow the per-frame flags -/

/-- Membership in the recorded draw list of a pass. -/
theorem mem_recordDraws {nodes : List Node} {flags : List Bool} {stride : Nat}
    {d : DrawCall} :
    d ∈ recordDraws nodes flags stride ↔
    ∃ i, i < nodes.length ∧ flags.getD i false = true ∧
      d = drawCallFor (nodes.getD i Node.defaultNode) i stride := by
  simp only [recordDraws, List.mem_filterMap, List.mem_range]
  constructor
  · rintro ⟨i, hi, hopt⟩
    by_cases hf : flags.getD i false
    · rw [if_pos hf] at hopt
      exact ⟨i, hi, hf, (Option.some.injEq _ _).mp hopt |>.symm⟩
    · rw [if_neg hf] at hopt
      exact absurd hopt (by simp)
  · rintro ⟨i, hi, hf, rfl⟩
    exact ⟨i, hi, by rw [if_pos hf]⟩

/-- The draw the loop would record for node `i` is present iff node `i`'s
flag is set (offsets `i * stride` are distinct across nodes for a positive
stride). -/
theorem recordDraws_draw_iff (nodes : List Node) (flags : List Bool) (stride : Nat)
    (hstride : 0 < stride) (i : Nat) (hi : i < nodes.length) :
    (drawCallFor (nodes.getD i Node.defaultNode) i stride ∈
      recordDraws nodes flags stride) ↔ flags.getD i false = true := by
  rw [mem_recordDraws]
  constructor
  · rintro ⟨j, hj, hfj, heq⟩
    have hoff : i * stride = j * stride := congrArg DrawCall.dynamicOffset heq
    have hij : i = j := Nat.eq_of_mul_eq_mul_right hstride hoff
    rw [hij]
    exact hfj
  · intro hf
    exact ⟨i, hi, hf, rfl⟩

/-- C4: in a frame that reaches rendering, the shadow pass records the
indexed draw for node `i` (binding its mesh buffers and dynamic offset
`i * shadowStride`) iff its casts-shadow flag is set, which equals the
light-frustum test of its bounding sphere; the color pass likewise with the
visible flag and the camera frustum; hence a node inside the light frustum
but outside the camera frustum is drawn by the shadow pass and skipped by
the color pass. -/
theorem renderPasses_draw_iff_flags (e : EngineFrame) (sFlags vFlags : List Bool)
    (hs : shadowFlagsSpec e sFlags) (hv : visibleFlagsSpec e vFlags)
    (hss : 0 < e.shadowStride) (hms : 0 < e.modelStride) :
    ∀ i, i < e.nodes.length →
      ((drawCallFor (e.nodes.getD i Node.defaultNode) i e.shadowStride ∈
          renderShadowDraws e sFlags) ↔
        sphereInFrustum (extractFrustum e.shadowVP)
          (e.nodes.getD i Node.defaultNode).boundingSphereQ) ∧
      ((drawCallFor (e.nodes.getD i Node.defaultNode) i e.modelStride ∈
          renderColorDraws e vFlags) ↔
        sphereInFrustum (extractFrustum e.sceneVP)
          (e.nodes.getD i Node.defaultNode).boundingSphereQ) ∧
      (sphereInFrustum (extractFrustum e.shadowVP)
          (e.nodes.getD i Node.defaultNode).boundingSphereQ →
        ¬ sphereInFrustum (extractFrustum e.sceneVP)
          (e.nodes.getD i Node.defaultNode).boundingSphereQ →
        (drawCallFor (e.nodes.getD i Node.defaultNode) i e.shadowStride ∈
          renderShadowDraws e sFlags) ∧
        (drawCallFor (e.nodes.getD i Node.defaultNode) i e.modelStride ∉
          renderColorDraws e vFlags)) := by
  intro i hi
  have hsIff : (drawCallFor (e.nodes.getD i Node.defaultNode) i e.shadowStride ∈
      renderShadowDraws e sFlags) ↔
      sphereInFrustum (extractFrustum e.shadowVP)
        (e.nodes.getD i Node.defaultNode).boundingSphereQ := by
    rw [renderShadowDraws, recordDraws_draw_iff e.nodes sFlags e.shadowStride hss i hi]
    exact hs.2 i hi
  have hvIff : (drawCallFor (e.nodes.getD i Node.defaultNode) i e.modelStride ∈
      renderColorDraws e vFlags) ↔
      sphereInFrustum (extractFrustum e.sceneVP)
        (e.nodes.getD i Node.defaultNode).boundingSphereQ := by
    rw [renderColorDraws, recordDraws_draw_iff e.nodes vFlags e.modelStride hms i hi]
    exact hv.2 i hi
  exact ⟨hsIff, hvIff,
    fun hin hout => ⟨hsIff.mpr hin, fun hmem => hout (hvIff.mp hmem)⟩⟩

/-- The default node's queried bounding sphere (center origin, radius 0) is
inside the frustum extracted from the identity matrix: every plane's
distance to the origin evaluates to 1. -/
theorem sphereInFrustum_idMat4_default :
    sphereInFrustum (extractFrustum idMat4) Node.defaultNode.boundingSphereQ := by
  intro i
  fin_cases i <;>
    simp [extractFrustum, preFrustumPlanes, normalizePlane, idMat4, Plane.distance,
      Vec3.dot, Vec3.divS, Vec3.length, Node.defaultNode, Node.boundingSphereQ,
      Node.bsphere, Node.pos, Vec3.add_def, Vec3.zero_def, Real.sqrt_one]

/-- Witness for C4: a one-node scene, identity light and camera
view-projection matrices, both flag arrays `[true]`, both strides 1. -/
theorem renderPasses_draw_iff_flags_witness :
    (drawCallFor ((⟨[Node.defaultNode], idMat4, idMat4, 1, 1⟩ : EngineFrame).nodes.getD 0
        Node.defaultNode) 0 1 ∈
      renderShadowDraws ⟨[Node.defaultNode], idMat4, idMat4, 1, 1⟩ [true]) ↔
    sphereInFrustum (extractFrustum idMat4)
      (([Node.defaultNode].getD 0 Node.defaultNode).boundingSphereQ) :=
  (renderPasses_draw_iff_flags ⟨[Node.defaultNode], idMat4, idMat4, 1, 1⟩ [true] [true]
    ⟨rfl, fun i hi => by
      have h0 : i = 0 := Nat.lt_one_iff.mp (by simpa using hi)
      subst h0
      exact Iff.intro (fun _ => sphereInFrustum_idMat4_default) (fun _ => rfl)⟩
    ⟨rfl, fun i hi => by
      have h0 : i = 0 := Nat.lt_one_iff.mp (by simpa using hi)
      subst h0
      exact Iff.intro (fun _ => sphereInFrustum_idMat4_default) (fun _ => rfl)⟩
    Nat.one_pos Nat.one_pos 0 (by simp)).1

/-! ## Claim C7: per-node uniform stride -/

/-- Clearing the low `k` bits of an in-range 64-ish value: for `x < 2^w` and
`k ≤ w`, `x &&& (2^w - 2^k)` rounds `x` down to a multiple of `2^k`. -/
theorem land_two_pow_clear {w k x : Nat} (hk : k ≤ w) (hx : x < 2 ^ w) :
    x &&& (2 ^ w - 2 ^ k) = 2 ^ k * (x / 2 ^ k) := by
  have hmask : 2 ^ w - 2 ^ k = 2 ^ k * (2 ^ (w - k) - 1) := by
    have h1 : 2 ^ k * (2 ^ (w - k) - 1) + 2 ^ k = 2 ^ w := by
      have h2 : 2 ^ k * (2 ^ (w - k) - 1) + 2 ^ k = 2 ^ k * (2 ^ (w - k) - 1 + 1) := by
        rw [Nat.mul_add, Nat.mul_one]
      rw [h2, Nat.sub_add_cancel (Nat.one_le_two_pow), ← Nat.pow_add,
        Nat.add_sub_cancel' hk]
    omega
  apply Nat.eq_of_testBit_eq
  intro i
  rw [Nat.testBit_and, hmask, Nat.testBit_mul_pow_two, Nat.testBit_mul_pow_two]
  rcases Nat.lt_or_ge i k with hik | hik
  · have hne : ¬ (i ≥ k) := by omega
    simp [hne]
  · have hdivBit : Nat.testBit (x / 2 ^ k) (i - k) = Nat.testBit x i := by
      rw [← Nat.shiftRight_eq_div_pow, Nat.testBit_shiftRight]
      congr 1
      omega
    rcases Nat.lt_or_ge i w with hiw | hiw
    · have hlt : i - k < w - k := by omega
      simp [hik, hdivBit, Nat.testBit_two_pow_sub_one, hlt]
    · have hxi : Nat.testBit x i = false :=
        Nat.testBit_lt_two_pow
          (lt_of_lt_of_le hx (Nat.pow_le_pow_right (by norm_num) hiw))
      simp [hik, hdivBit, hxi]

/-- For a power-of-two alignment and no `size_t` overflow in `s + a - 1`,
the computed stride is `a * ((s + a - 1) / a)`. -/
theorem alignUp_eq (s a k : Nat) (hk : a = 2 ^ k) (hof : s + a - 1 < 2 ^ 64) :
    minDynamicUBOAlignment s a = a * ((s + a - 1) / a) := by
  subst hk
  have ha : 0 < 2 ^ k := Nat.two_pow_pos k
  have hk64 : k ≤ 64 := by
    have h1 : 2 ^ k ≤ 2 ^ 64 := by omega
    exact (Nat.pow_le_pow_iff_right (by norm_num)).mp h1
  rw [minDynamicUBOAlignment, if_pos ha, Nat.mod_eq_of_lt hof]
  exact land_two_pow_clear hk64 hof

/-- The stride is the least multiple of the alignment that is at least the
struct size (power-of-two alignment, no overflow). -/
theorem alignUp_least (s a k : Nat) (hk : a = 2 ^ k) (hof : s + a - 1 < 2 ^ 64) :
    a ∣ minDynamicUBOAlignment s a ∧ s ≤ minDynamicUBOAlignment s a ∧
    ∀ m, a ∣ m → s ≤ m → minDynamicUBOAlignment s a ≤ m := by
  have ha : 0 < a := by rw [hk]; exact Nat.two_pow_pos k
  rw [alignUp_eq s a k hk hof]
  refine ⟨Dvd.intro _ rfl, ?_, ?_⟩
  · have hmod := Nat.div_add_mod (s + a - 1) a
    have hlt : (s + a - 1) % a < a := Nat.mod_lt _ ha
    omega
  · intro m hm hsm
    obtain ⟨t, rfl⟩ := hm
    have hdiv : (s + a - 1) / a ≤ t := by
      have h1 : s + a - 1 ≤ a - 1 + a * t := by omega
      have h2 : (s + a - 1) / a ≤ (a - 1 + a * t) / a := Nat.div_le_div_right h1
      rwa [Nat.add_mul_div_left _ _ ha, Nat.div_eq_of_lt (show a - 1 < a by omega),
        Nat.zero_add] at h2
    exact Nat.mul_le_mul_left a hdiv

/-- C7 (amended): when the alignment is zero the stride is the struct size
unchanged; for a power-of-two alignment and no `size_t` overflow in the
rounding addition (`s + a - 1 < 2^64`), the stride is the smallest multiple
of the alignment that is at least the struct size.  (Without the overflow
restriction the claim fails: see the counterexample.) -/
theorem minDynamicUBOAlignment_aligned (s a : Nat) :
    (a = 0 → minDynamicUBOAlignment s a = s) ∧
    (∀ k, a = 2 ^ k → s + a - 1 < 2 ^ 64 →
      a ∣ minDynamicUBOAlignment s a ∧ s ≤ minDynamicUBOAlignment s a ∧
      ∀ m, a ∣ m → s ≤ m → minDynamicUBOAlignment s a ≤ m) :=
  ⟨fun h => by rw [minDynamicUBOAlignment, if_neg (by omega)],
   fun k hk hof => alignUp_least s a k hk hof⟩

/-- Witness for C7 at struct size 100 with alignments 0 and 64. -/
theorem minDynamicUBOAlignment_aligned_witness :
    minDynamicUBOAlignment 100 0 = 100 ∧
    64 ∣ minDynamicUBOAlignment 100 64 ∧
    100 ≤ minDynamicUBOAlignment 100 64 ∧
    minDynamicUBOAlignment 100 64 ≤ 128 :=
  ⟨(minDynamicUBOAlignment_aligned 100 0).1 rfl,
   ((minDynamicUBOAlignment_aligned 100 64).2 6 (by decide) (by decide)).1,
   ((minDynamicUBOAlignment_aligned 100 64).2 6 (by decide) (by decide)).2.1,
   ((minDynamicUBOAlignment_aligned 100 64).2 6 (by decide) (by decide)).2.2 128
     (by decide) (by decide)⟩

/-- C7 counterexample to the unrestricted claim: at `s = 2^64 - 1`, `a = 2`
the `size_t` addition wraps and the computed stride is 0, which is not the
smallest multiple of 2 that is at least `s` (it is not even `≥ s`). -/
theorem minDynamicUBOAlignment_overflow_cex :
    minDynamicUBOAlignment (2 ^ 64 - 1) 2 = 0 ∧
    ¬ (2 ^ 64 - 1 ≤ minDynamicUBOAlignment (2 ^ 64 - 1) 2) := by
  decide

/-! ## Claim C10: buffer capacity is exactly 32 nodes -/

/-- C10: the model/shadow uniform buffers hold exactly `MAX_NODES = 32`
strides; with `addNode` appending without any limit, every per-node write
of `updateUBO` (offset `i * stride`, length the struct size) stays inside
the buffer iff the scene has at most 32 nodes. -/
theorem uboWrites_bounds_iff (size a k n : Nat) (hk : a = 2 ^ k)
    (hof : size + a - 1 < 2 ^ 64) (hpos : 0 < size) :
    MAX_NODES = 32 ∧
    uboTotalBufferSize (minDynamicUBOAlignment size a) =
      32 * minDynamicUBOAlignment size a ∧
    ((∀ i < n, uboWriteWithinBuffer i (minDynamicUBOAlignment size a) size
        (uboTotalBufferSize (minDynamicUBOAlignment size a))) ↔ n ≤ MAX_NODES) ∧
    (∀ (nodes : List Node) (nd : Node), (addNode nodes nd).length = nodes.length + 1) := by
  obtain ⟨hdvd, hle, _⟩ := alignUp_least size a k hk hof
  refine ⟨rfl, rfl, ?_, fun nodes nd => by simp [addNode]⟩
  constructor
  · intro hall
    by_contra hn
    push_neg at hn
    have h32 := hall 32 (by simpa [MAX_NODES] using hn)
    rw [uboWriteWithinBuffer, uboTotalBufferSize, MAX_NODES] at h32
    have hz : size = 0 := by omega
    omega
  · intro hn i hi
    rw [uboWriteWithinBuffer, uboTotalBufferSize, MAX_NODES]
    have hi31 : i ≤ 31 := by
      have := lt_of_lt_of_le hi hn
      simp [MAX_NODES] at this
      omega
    calc i * minDynamicUBOAlignment size a + size
        ≤ 31 * minDynamicUBOAlignment size a + minDynamicUBOAlignment size a :=
          Nat.add_le_add (Nat.mul_le_mul_right _ hi31) hle
      _ = 32 * minDynamicUBOAlignment size a := by ring

/-- Witness for C10 at struct size 100, alignment 64, and 32 nodes: the
write for node 5 fits, and appending to an empty scene grows it by one. -/
theorem uboWrites_bounds_iff_witness :
    uboWriteWithinBuffer 5 (minDynamicUBOAlignment 100 64) 100
      (uboTotalBufferSize (minDynamicUBOAlignment 100 64)) ∧
    (addNode [] Node.defaultNode).length = ([] : List Node).length + 1 :=
  ⟨((uboWrites_bounds_iff 100 64 6 32 (by decide) (by decide) (by decide)).2.2.1.mpr
      (by decide)) 5 (by decide),
   (uboWrites_bounds_iff 100 64 6 32 (by decide) (by decide) (by decide)).2.2.2 []
     Node.defaultNode⟩

/-! ## Claim C8: stale-surface handling in Engine::update -/

/-- C8 (amended): a stale first acquire triggers a rebuild and exactly one
acquire retry; if the acquire the frame proceeds with is not a success, the
frame is skipped (no uniform update, no render, no present) and the queue is
idled, and `update` returns normally (the loop continues).  A stale present
triggers a rebuild but is NOT retried: the present is attempted exactly once
per rendered frame and no queue idle follows.  (The original claim's
"retries that operation once" is false for the present: see the
counterexample.) -/
theorem update_stale_surface_recovery (env : FrameEnv) :
    (env.acquire1.isStale = true →
      (updateModel env).acquireAttempts = 2 ∧ 1 ≤ (updateModel env).resizeCalls) ∧
    (env.acquire1.isStale = false → (updateModel env).acquireAttempts = 1) ∧
    (finalAcquire env ≠ VKResult.success →
      (updateModel env).uboUpdated = false ∧ (updateModel env).rendered = false ∧
      (updateModel env).presentAttempts = 0 ∧ (updateModel env).queueWaitIdle = true) ∧
    (finalAcquire env = VKResult.success →
      (updateModel env).uboUpdated = true ∧ (updateModel env).rendered = true ∧
      (updateModel env).presentAttempts = 1 ∧ (updateModel env).queueWaitIdle = false ∧
      (env.present1.isStale = true →
        (updateModel env).resizeCalls =
          (if env.acquire1.isStale then 1 else 0) + 1)) := by
  obtain ⟨a1, a2, p1⟩ := env
  cases a1 <;> cases a2 <;> cases p1 <;> decide

/-- Witness for C8: stale first acquire with successful retry and a clean
present — two acquire attempts and one rebuild. -/
theorem update_stale_surface_recovery_witness :
    (updateModel ⟨VKResult.outOfDate, VKResult.success, VKResult.success⟩).acquireAttempts = 2 ∧
    1 ≤ (updateModel ⟨VKResult.outOfDate, VKResult.success, VKResult.success⟩).resizeCalls :=
  (update_stale_surface_recovery ⟨VKResult.outOfDate, VKResult.success, VKResult.success⟩).1
    rfl

/-- C8 counterexample to the claim as stated: when the present reports an
out-of-date surface, `Engine::update` resizes but presents only once (no
retry of the present), the frame was fully rendered rather than skipped, and
no queue idle happens. -/
theorem update_present_no_retry_cex :
    (updateModel ⟨VKResult.success, VKResult.success, VKResult.outOfDate⟩).presentAttempts
        = 1 ∧
    ¬ ((updateModel ⟨VKResult.success, VKResult.success,
        VKResult.outOfDate⟩).presentAttempts = 2) ∧
    (updateModel ⟨VKResult.success, VKResult.success, VKResult.outOfDate⟩).rendered = true ∧
    (updateModel ⟨VKResult.success, VKResult.success,
        VKResult.outOfDate⟩).queueWaitIdle = false := by
  decide

end B3
